import Mathlib

/-!
Shallow embedding of `src/ftdi_stream.c` (libftdi streaming reader).

The C file drives a pool of asynchronous USB bulk-read transfers:
`ftdi_stream_read_cb` (lines 82-130) is the completion handler that splits a
completed transfer's buffer into packets, strips the 2-byte header of each
packet, forwards payloads to the consumer callback and decides
resubmit-vs-release; `ftdi_stream_read` (lines 164-318) is the driver entry
point: capability check, mode reset, flush, transfer-pool setup, the
event-pumping do-while loop with stall detection and periodic progress
reports, and the cleanup path.

Machine integers: `total_bytes` is a C `uint64_t`, modelled as `Nat` reduced
mod `2^64` at each update; int-valued status/error codes are modelled as
`Int`.  Timestamps (`struct timespec`, compared as `double` seconds in C)
are modelled as integer seconds: every claim under study depends only on
whether the 1-second reporting interval has elapsed, never on sub-second
values.  The derived rate fields (`double` in C) are modelled as exact
rationals; no claim inspects their numeric values.
-/

namespace FtdiStream

/-- `2^64`, the modulus of C `uint64_t` arithmetic. -/
def U64 : Nat := 2 ^ 64

/-- `t += d` where `t` is `uint64_t` and `d` is a (possibly negative) `int`:
the C integer conversions make this addition mod `2^64`
(line 106: `state->progress.current.total_bytes += payloadLen;`). -/
def addU64 (t : Nat) (d : Int) : Nat :=
  (((t : Int) + d) % (U64 : Int)).toNat

/-- `uint64_t` subtraction (wrapping), used in the rate computation
(line 296: `current.total_bytes - prev.total_bytes`). -/
def subU64 (a b : Nat) : Nat := (a + U64 - b % U64) % U64

/-- `LIBUSB_TRANSFER_COMPLETED` (value 0 of `enum libusb_transfer_status`). -/
def LIBUSB_TRANSFER_COMPLETED : Int := 0

/-- `LIBUSB_ERROR_IO` (line 128). -/
def LIBUSB_ERROR_IO : Int := -1

/-- `LIBUSB_ERROR_NO_MEM` (lines 203, 215, 226). -/
def LIBUSB_ERROR_NO_MEM : Int := -11

/-- `LIBUSB_ERROR_INTERRUPTED` (line 264). -/
def LIBUSB_ERROR_INTERRUPTED : Int := -10

/-- `struct size_and_time` (lines 50-54): a byte count with its capture time. -/
structure SizeAndTime where
  total_bytes : Nat
  time : Int
deriving Repr, DecidableEq

/-- `struct ftdi_stream_progress` (lines 56-64). -/
structure ftdi_stream_progress where
  first : SizeAndTime
  prev : SizeAndTime
  current : SizeAndTime
  total_time : Int
  total_rate : ℚ
  current_rate : ℚ
deriving Repr, DecidableEq

/-- `FTDIStreamState` (lines 66-74).  The caller-owned `callback`/`userdata`
fields are modelled as an external parameter (`Callback` below) rather than
state, since they never change during a session. -/
structure FTDIStreamState where
  packetsize : Nat
  activity : Nat
  result : Int
  progress : ftdi_stream_progress
deriving Repr, DecidableEq

/-- The consumer callback `ftdi_stream_callback`: receives the payload bytes
and the (possibly negative) `int` length argument, returns an `int`
(0 = keep streaming, nonzero = stop). -/
abbrev Callback := List Nat → Int → Int

/-- One invocation of the consumer callback from the packet loop:
the bytes passed at `ptr + 2` and the `payloadLen` length argument. -/
structure Delivery where
  payload : List Nat
  len : Int
deriving Repr, DecidableEq

/-- What the completion handler did with the transfer's buffer. -/
inductive BufferAction where
  | resubmitted
  | released
  | noAction
deriving Repr, DecidableEq

/-- `numPackets = (length + packet_size - 1) / packet_size` (line 94). -/
def numPackets (length packet_size : Nat) : Nat :=
  (length + packet_size - 1) / packet_size

/-- Result of the packet-splitting loop: final `total_bytes` accumulator,
the list of consumer-callback invocations, and the last callback return
value `res`. -/
structure LoopOut where
  total : Nat
  deliveries : List Delivery
  res : Int
deriving Repr, DecidableEq

/-- The `for (i = 0; i < numPackets; i++)` loop of lines 97-113, with the
iteration count as fuel.  Each iteration takes `packetLen = min(length, P)`
(lines 100-103, where `length` is the remaining length, decremented at line
112), computes `payloadLen = packetLen - 2` (line 105), accumulates it into
`total_bytes` (line 106), invokes the callback on the bytes after the 2-byte
header (lines 108-109) and advances the pointer (line 111). -/
def packetLoop (cb : Callback) (P : Nat) (res : Int) :
    Nat → List Nat → Nat → LoopOut
  | 0, _, total => ⟨total, [], res⟩
  | n + 1, buf, total =>
      let packetLen := min buf.length P
      let payloadLen : Int := (packetLen : Int) - 2
      let total1 := addU64 total payloadLen
      let payload := (buf.take packetLen).drop 2
      let r := cb payload payloadLen
      let rest := packetLoop cb P r n (buf.drop packetLen) total1
      ⟨rest.total, ⟨payload, payloadLen⟩ :: rest.deliveries, rest.res⟩

/-- One transfer completion as delivered by the transport: its status, the
first `actual_length` bytes of its buffer, and the value that
`libusb_submit_transfer` would return if the handler resubmits it. -/
structure CompletionEvent where
  status : Int
  buf : List Nat
  submitRes : Int
deriving Repr, DecidableEq

/-- Result of one completion-handler invocation. -/
structure CbOut where
  state : FTDIStreamState
  deliveries : List Delivery
  action : BufferAction
deriving Repr, DecidableEq

/-- `ftdi_stream_read_cb` (lines 82-130).  Increments `activity` (line 88);
on `LIBUSB_TRANSFER_COMPLETED` runs the packet loop, then either releases
the buffer and transfer when the last callback return was nonzero (lines
114-118) or resubmits, storing the submit result into `state->result`
(lines 119-123); on any other status sets `state->result = LIBUSB_ERROR_IO`
(lines 125-129) and neither resubmits nor releases. -/
def ftdi_stream_read_cb (cb : Callback) (st : FTDIStreamState)
    (ev : CompletionEvent) : CbOut :=
  let st1 := { st with activity := st.activity + 1 }
  if ev.status = LIBUSB_TRANSFER_COMPLETED then
    let out := packetLoop cb st1.packetsize 0
      (numPackets ev.buf.length st1.packetsize) ev.buf
      st1.progress.current.total_bytes
    let st2 := { st1 with progress := { st1.progress with
      current := { st1.progress.current with total_bytes := out.total } } }
    if out.res ≠ 0 then
      ⟨st2, out.deliveries, .released⟩
    else
      ⟨{ st2 with result := ev.submitRes }, out.deliveries, .resubmitted⟩
  else
    ⟨{ st1 with result := LIBUSB_ERROR_IO }, [], .noAction⟩

/-- All completion callbacks fired from within one
`libusb_handle_events_timeout` call, in order. -/
def handleEvents (cb : Callback) (st : FTDIStreamState) :
    List CompletionEvent → FTDIStreamState
  | [] => st
  | ev :: rest => handleEvents cb (ftdi_stream_read_cb cb st ev).state rest

/-- `timespec_diff` (lines 139-143): `(a - b)` as a real number of seconds. -/
def timespec_diff (a b : Int) : Int := a - b

/-- `progressInterval = 1.0` seconds (line 258). -/
def progressInterval : Int := 1

/-- The body of the `if (timespec_diff(...) >= progressInterval)` block
(lines 280-302): stamp `current.time = now`, recompute `total_time`, and only
when `prev.total_bytes` is nonzero (line 284) compute the two rates; finally
invoke the callback with a null data pointer (line 300, return ignored) and
set `prev = current` (line 301).  The returned `Bool` records whether the
rate branch was taken. -/
def reportStep (p : ftdi_stream_progress) (now : Int) :
    ftdi_stream_progress × Bool :=
  let p1 := { p with current := { p.current with time := now } }
  let p2 := { p1 with total_time := timespec_diff p1.current.time p1.first.time }
  let pc :=
    if p2.prev.total_bytes ≠ 0 then
      let currentTime := timespec_diff p2.current.time p2.prev.time
      ({ p2 with
          total_rate := (p2.current.total_bytes : ℚ) / p2.total_time,
          current_rate := (subU64 p2.current.total_bytes p2.prev.total_bytes : ℚ)
            / currentTime }, true)
    else (p2, false)
  ({ pc.1 with prev := pc.1.current }, pc.2)

/-- Lines 267-270: `if (!state.result) state.result = xfer_err;`. -/
def adoptDispatchErr (st : FTDIStreamState) (e : Int) : FTDIStreamState :=
  if st.result = 0 then { st with result := e } else st

/-- Lines 271-274: `if (state.activity == 0) state.result = 1; else
state.activity = 0;` — the stall check. -/
def stallCheck (st : FTDIStreamState) : FTDIStreamState :=
  if st.activity = 0 then { st with result := 1 } else { st with activity := 0 }

/-- One iteration of the driver's do-while loop, as seen from the outside:
the transport delivers `events` during the (possibly retried) dispatch call,
the dispatch call itself returns `xferErr1` (retried once as `xferErr2` when
interrupted, lines 263-266), and `now` is the timestamp taken at line 277. -/
structure LoopIter where
  xferErr1 : Int
  xferErr2 : Int
  events : List CompletionEvent
  now : Int
deriving Repr, DecidableEq

/-- The dispatch result after the single `LIBUSB_ERROR_INTERRUPTED` retry
(lines 263-266). -/
def effectiveXferErr (it : LoopIter) : Int :=
  if it.xferErr1 = LIBUSB_ERROR_INTERRUPTED then it.xferErr2 else it.xferErr1

/-- One full iteration of the do-while body (lines 254-304): run the
completion callbacks, adopt the dispatch error if no result is set, run the
stall check, then run the periodic progress report when the interval has
elapsed (line 278). -/
def driverIter (cb : Callback) (st : FTDIStreamState) (it : LoopIter) :
    FTDIStreamState :=
  let st1 := handleEvents cb st it.events
  let st2 := adoptDispatchErr st1 (effectiveXferErr it)
  let st3 := stallCheck st2
  if timespec_diff it.now st3.progress.current.time ≥ progressInterval then
    { st3 with progress := (reportStep st3.progress it.now).1 }
  else st3

/-- The `do { ... } while (!state.result)` loop (lines 254-304) run against a
list of environment-provided iterations: each iteration body executes, then
the loop exits as soon as `state.result` is nonzero. -/
def runSession (cb : Callback) : FTDIStreamState → List LoopIter → FTDIStreamState
  | st, [] => st
  | st, it :: rest =>
      let st1 := driverIter cb st it
      if st1.result = 0 then runSession cb st1 rest else st1

/-- `FTDIStreamState state = { callback, userdata, ftdi->max_packet_size, 1 }`
(line 170) followed by `timespec_get(&state.progress.first.time, TIME_UTC)`
(line 252): activity starts at 1, result at 0, all progress bytes at 0, and
only `first.time` receives the session start time — `current.time` and
`prev.time` stay zero-initialized. -/
def initState (P : Nat) (t0 : Int) : FTDIStreamState :=
  { packetsize := P
    activity := 1
    result := 0
    progress :=
      { first := ⟨0, t0⟩
        prev := ⟨0, 0⟩
        current := ⟨0, 0⟩
        total_time := 0
        total_rate := 0
        current_rate := 0 } }

/-- Environment for the transfer-pool setup loop (lines 200-234): whether
`calloc` of the pointer array succeeds, whether `libusb_alloc_transfer`
succeeds at each index, whether `malloc(bufferSize)` succeeds at each index,
and what `libusb_submit_transfer` returns at each index. -/
structure SetupEnv where
  callocOk : Bool
  allocOk : List Bool
  mallocOk : List Bool
  submitRes : List Int
deriving Repr, DecidableEq

/-- Outcome of the setup loop: which indices hold a live transfer object,
which hold a live buffer, how many were submitted, the final `err`, and
whether the loop aborted via `goto cleanup`. -/
structure SetupResult where
  transfersAllocated : List Nat
  buffersAllocated : List Nat
  submittedCount : Nat
  err : Int
  failed : Bool
deriving Repr, DecidableEq

/-- The `for (xferIndex = 0; xferIndex < num_transfers; ...)` setup loop
(lines 207-234), from index `i` with `fuel` indices left.  At each index:
`libusb_alloc_transfer` failure sets `err = LIBUSB_ERROR_NO_MEM` and jumps to
cleanup (lines 211-217); `malloc` failure inside `libusb_fill_bulk_transfer`
likewise (lines 219-228, the transfer object at `i` already exists); a
nonzero `libusb_submit_transfer` return becomes `err` and jumps to cleanup
(lines 231-233, transfer and buffer at `i` both exist). -/
def setupFrom (env : SetupEnv) : Nat → Nat → SetupResult
  | _, 0 => ⟨[], [], 0, 0, false⟩
  | i, fuel + 1 =>
      if env.allocOk.getD i true = false then
        ⟨[], [], 0, LIBUSB_ERROR_NO_MEM, true⟩
      else if env.mallocOk.getD i true = false then
        ⟨[i], [], 0, LIBUSB_ERROR_NO_MEM, true⟩
      else if env.submitRes.getD i 0 ≠ 0 then
        ⟨[i], [i], 0, env.submitRes.getD i 0, true⟩
      else
        let rest := setupFrom env (i + 1) fuel
        ⟨i :: rest.transfersAllocated, i :: rest.buffersAllocated,
          rest.submittedCount + 1, rest.err, rest.failed⟩

/-- The whole setup loop over `num_transfers` indices. -/
def setupLoop (env : SetupEnv) (num_transfers : Nat) : SetupResult :=
  setupFrom env 0 num_transfers

/-- What the `cleanup:` block (lines 310-313) releases: `free(transfers)`
frees the pointer array only — no individual transfer object and no
individual transfer buffer is cancelled or freed there. -/
structure CleanupEffect where
  arrayFreed : Bool
  transfersFreed : List Nat
  buffersFreed : List Nat
deriving Repr, DecidableEq

/-- The `cleanup:` block (lines 310-313): `if (transfers) free(transfers);`.
It frees the array when it was allocated, and nothing else. -/
def cleanupBlock (arrayAllocated : Bool) : CleanupEffect :=
  ⟨arrayAllocated, [], []⟩

/-- Lines 314-317: `if (err) return err; else return state.result;`. -/
def cleanupReturn (err result : Int) : Int :=
  if err ≠ 0 then err else result

/-- Environment of one `ftdi_stream_read` call: the outcomes of the external
collaborators, in program order. -/
structure ReadEnv where
  typeSupported : Bool
  resetOk : Bool
  flushOk : Bool
  setup : SetupEnv
  syncffOk : Bool
  t0 : Int
  iters : List LoopIter
deriving Repr, DecidableEq

/-- `ftdi_stream_read` (lines 164-318) as a function of its environment:
returns 1 on unsupported device type / failed mode reset / failed flush
(lines 176-194); `goto cleanup` with `err = LIBUSB_ERROR_NO_MEM` when the
`calloc` of the transfer array fails (lines 200-205); runs the setup loop and
goes to cleanup with its `err` on failure; `goto cleanup` with the current
`err` (0 — the last successful submit) when the switch to `BITMODE_SYNCFF`
fails (lines 241-246); otherwise pumps the do-while loop and falls through to
cleanup with `err = 0`, returning `state.result` (lines 310-317). -/
def ftdi_stream_read (cb : Callback) (P : Nat) (num_transfers : Nat)
    (env : ReadEnv) : Int :=
  if env.typeSupported = false then 1
  else if env.resetOk = false then 1
  else if env.flushOk = false then 1
  else if env.setup.callocOk = false then cleanupReturn LIBUSB_ERROR_NO_MEM 0
  else
    let s := setupLoop env.setup num_transfers
    if s.failed then cleanupReturn s.err 0
    else if env.syncffOk = false then cleanupReturn 0 0
    else cleanupReturn 0 (runSession cb (initState P env.t0) env.iters).result

/-- `first.total_bytes = 0` together with
`prev.total_bytes ≤ current.total_bytes`: the spec's progress-record
invariant chain (`current ≥ prev ≥ first = 0`). -/
def progressInv (p : ftdi_stream_progress) : Prop :=
  p.first.total_bytes = 0 ∧ p.prev.total_bytes ≤ p.current.total_bytes

instance (p : ftdi_stream_progress) : Decidable (progressInv p) := by
  unfold progressInv; infer_instance

/-- Total `actual_length` bytes carried by a list of completions. -/
def sumLenEvents (evs : List CompletionEvent) : Nat :=
  (evs.map (fun ev => ev.buf.length)).sum

/-- Total `actual_length` bytes carried by a list of loop iterations. -/
def sumLenIters (iters : List LoopIter) : Nat :=
  (iters.map (fun it => sumLenEvents it.events)).sum

/-- An iteration none of whose completions has `actual_length ≡ 1 (mod P)`,
i.e. every packet carries at least the 2-byte header. -/
def goodIter (P : Nat) (it : LoopIter) : Prop :=
  ∀ ev ∈ it.events, ev.buf.length % P ≠ 1

instance (P : Nat) (it : LoopIter) : Decidable (goodIter P it) := by
  unfold goodIter; infer_instance

/-- An iteration whose dispatch succeeded and whose completions all succeeded
and resubmitted cleanly: no I/O error of any kind occurred during it. -/
def cleanIter (it : LoopIter) : Prop :=
  effectiveXferErr it = 0 ∧
    ∀ ev ∈ it.events, ev.status = LIBUSB_TRANSFER_COMPLETED ∧ ev.submitRes = 0

instance (it : LoopIter) : Decidable (cleanIter it) := by
  unfold cleanIter; infer_instance

/-- Consumer callback that always answers 0 (keep streaming). -/
def cbZero : Callback := fun _ _ => 0

/-- Consumer callback that always answers 1 (request stop). -/
def cbOne : Callback := fun _ _ => 1

/-- Environment for the C2 counterexample: device support, reset, flush,
pool setup of a single transfer and the mode switch all succeed; the dispatch
loop delivers one successful 4-byte completion (the consumer answers 1:
stop, buffer released), then an iteration with no completions.  No I/O error
occurs anywhere. -/
def envC2 : ReadEnv :=
  { typeSupported := true
    resetOk := true
    flushOk := true
    setup := ⟨true, [true], [true], [0]⟩
    syncffOk := true
    t0 := 0
    iters := [⟨0, 0, [⟨0, [1, 2, 3, 4], 0⟩], 1⟩, ⟨0, 0, [], 2⟩] }

/-- Environment for the C9 witness: everything up to and including pool
setup (two transfers) succeeds, then the switch to `BITMODE_SYNCFF` fails. -/
def envC9 : ReadEnv :=
  { typeSupported := true
    resetOk := true
    flushOk := true
    setup := ⟨true, [true, true], [true, true], [0, 0]⟩
    syncffOk := false
    t0 := 0
    iters := [] }

/-- A mid-session state with packet size 2 and 5 payload bytes already
accumulated in the progress counter. -/
def stC10 : FTDIStreamState :=
  { packetsize := 2
    activity := 1
    result := 0
    progress :=
      { first := ⟨0, 0⟩
        prev := ⟨0, 0⟩
        current := ⟨5, 0⟩
        total_time := 0
        total_rate := 0
        current_rate := 0 } }

/-- Driver-loop iteration with no completions and a clean dispatch at time 1. -/
def itEmpty1 : LoopIter := ⟨0, 0, [], 1⟩

/-- Driver-loop iteration with no completions and a clean dispatch at time 2. -/
def itEmpty2 : LoopIter := ⟨0, 0, [], 2⟩

/-- Driver-loop iteration with no completions and a clean dispatch at time 3. -/
def itEmpty3 : LoopIter := ⟨0, 0, [], 3⟩

/-! ## Helper lemmas -/

theorem reportStep_snd (p : ftdi_stream_progress) (now : Int) :
    (reportStep p now).2 = true ↔ p.prev.total_bytes ≠ 0 := by
  unfold reportStep
  dsimp only
  split <;> simp_all

theorem reportStep_prev_total (p : ftdi_stream_progress) (now : Int) :
    (reportStep p now).1.prev.total_bytes = p.current.total_bytes := by
  unfold reportStep
  dsimp only
  split <;> rfl

theorem reportStep_current_total (p : ftdi_stream_progress) (now : Int) :
    (reportStep p now).1.current.total_bytes = p.current.total_bytes := by
  unfold reportStep
  dsimp only
  split <;> rfl

theorem reportStep_first (p : ftdi_stream_progress) (now : Int) :
    (reportStep p now).1.first = p.first := by
  unfold reportStep
  dsimp only
  split <;> rfl

theorem numPackets_zero (P : Nat) : numPackets 0 P = 0 := by
  unfold numPackets
  rcases Nat.eq_zero_or_pos P with h | h
  · subst h; rfl
  · exact Nat.div_eq_of_lt (by omega)

theorem handleEvents_nil (cb : Callback) (st : FTDIStreamState) :
    handleEvents cb st [] = st := rfl

theorem numPackets_eq_zero (L P : Nat) (hP : 0 < P) (h : numPackets L P = 0) :
    L = 0 := by
  unfold numPackets at h
  rw [Nat.div_eq_zero_iff hP] at h
  omega

theorem numPackets_one (L P : Nat) (hL : 1 ≤ L) (hLP : L ≤ P) :
    numPackets L P = 1 := by
  unfold numPackets
  exact Nat.div_eq_of_lt_le (by omega) (by omega)

theorem numPackets_succ (L P : Nat) (hP : 0 < P) (hLP : P < L) :
    numPackets L P = numPackets (L - P) P + 1 := by
  unfold numPackets
  have h : L + P - 1 = (L - P) + P - 1 + P := by omega
  rw [h, Nat.add_div_right _ hP]

theorem sub_mod_self (L P : Nat) (h : P ≤ L) : (L - P) % P = L % P := by
  conv_rhs => rw [show L = (L - P) + P by omega]
  rw [Nat.add_mod_right]

theorem packetLoop_zero (cb : Callback) (P : Nat) (r : Int) (buf : List Nat)
    (total : Nat) : packetLoop cb P r 0 buf total = ⟨total, [], r⟩ := rfl

theorem packetLoop_len (cb : Callback) (P : Nat) :
    ∀ (n : Nat) (r : Int) (buf : List Nat) (total : Nat),
      (packetLoop cb P r n buf total).deliveries.length = n
  | 0, r, buf, total => rfl
  | n + 1, r, buf, total => by
      unfold packetLoop
      dsimp only [List.length_cons]
      rw [packetLoop_len cb P n _ _ _]

theorem packetLoop_deliveries (cb : Callback) (P : Nat) (hP : 0 < P) :
    ∀ (n : Nat) (buf : List Nat) (r : Int) (total : Nat),
      n = numPackets buf.length P →
      (packetLoop cb P r n buf total).deliveries
        = (List.range n).map (fun i =>
            ⟨((buf.drop (i * P)).take (min (buf.length - i * P) P)).drop 2,
              ((min (buf.length - i * P) P : Nat) : Int) - 2⟩)
  | 0, buf, r, total, _ => rfl
  | n + 1, buf, r, total, h => by
      have hL : 1 ≤ buf.length := by
        rcases Nat.eq_zero_or_pos buf.length with h0 | h1
        · rw [h0, numPackets_zero] at h
          omega
        · exact h1
      unfold packetLoop
      dsimp only
      by_cases hle : buf.length ≤ P
      · have h1 : numPackets buf.length P = 1 := numPackets_one _ _ hL hle
        have hn : n = 0 := by omega
        subst hn
        rw [packetLoop_zero]
        dsimp only
        rw [show List.range 1 = [0] from rfl]
        simp [Nat.min_eq_left hle,
          min_eq_left (show (buf.length : Int) ≤ (P : Int) by exact_mod_cast hle)]
      · push_neg at hle
        have hmin : min buf.length P = P := Nat.min_eq_right (le_of_lt hle)
        have hlen : (buf.drop P).length = buf.length - P := List.length_drop P buf
        have hn : n = numPackets (buf.drop P).length P := by
          rw [hlen]
          have := numPackets_succ buf.length P hP hle
          omega
        rw [hmin]
        rw [packetLoop_deliveries cb P hP n (buf.drop P) _ _ hn]
        rw [List.range_succ_eq_map, List.map_cons, List.map_map]
        have hhead : (⟨(buf.take P).drop 2, ((P : Nat) : Int) - 2⟩ : Delivery)
            = ⟨((buf.drop (0 * P)).take (min (buf.length - 0 * P) P)).drop 2,
              ((min (buf.length - 0 * P) P : Nat) : Int) - 2⟩ := by
          simp [hmin]
        have htail :
            (List.range n).map (fun i =>
              (⟨(((buf.drop P).drop (i * P)).take
                    (min ((buf.drop P).length - i * P) P)).drop 2,
                ((min ((buf.drop P).length - i * P) P : Nat) : Int) - 2⟩ : Delivery))
            = (List.range n).map ((fun i =>
                (⟨((buf.drop (i * P)).take (min (buf.length - i * P) P)).drop 2,
                  ((min (buf.length - i * P) P : Nat) : Int) - 2⟩ : Delivery))
                ∘ Nat.succ) := by
          refine List.map_congr_left (fun i _ => ?_)
          have e1 : (buf.drop P).length - i * P = buf.length - Nat.succ i * P := by
            rw [hlen, Nat.succ_mul]
            omega
          have e2 : (buf.drop P).drop (i * P) = buf.drop (Nat.succ i * P) := by
            rw [List.drop_drop]
            congr 1
            rw [Nat.succ_mul]
            omega
          dsimp only [Function.comp]
          rw [e1, e2]
        rw [htail, hhead]
  termination_by n => n

theorem packetLoop_sum (cb : Callback) (P : Nat) (hP : 0 < P) :
    ∀ (n : Nat) (buf : List Nat) (r : Int) (total : Nat),
      n = numPackets buf.length P →
      ((packetLoop cb P r n buf total).deliveries.map Delivery.len).sum
        = (buf.length : Int) - 2 * n
  | 0, buf, r, total, h => by
      have h0 : buf.length = 0 := numPackets_eq_zero _ _ hP h.symm
      simp [packetLoop, h0]
  | n + 1, buf, r, total, h => by
      have hL : 1 ≤ buf.length := by
        rcases Nat.eq_zero_or_pos buf.length with h0 | h1
        · rw [h0, numPackets_zero] at h
          omega
        · exact h1
      unfold packetLoop
      dsimp only [List.map_cons, List.sum_cons]
      by_cases hle : buf.length ≤ P
      · have h1 : numPackets buf.length P = 1 := numPackets_one _ _ hL hle
        have hn : n = 0 := by omega
        subst hn
        rw [packetLoop_zero]
        dsimp only [List.map_nil, List.sum_nil]
        rw [Nat.min_eq_left hle]
        push_cast
        ring
      · push_neg at hle
        have hmin : min buf.length P = P := Nat.min_eq_right (le_of_lt hle)
        have hlen : (buf.drop P).length = buf.length - P := List.length_drop P buf
        have hn : n = numPackets (buf.drop P).length P := by
          rw [hlen]
          have := numPackets_succ buf.length P hP hle
          omega
        rw [hmin]
        rw [packetLoop_sum cb P hP n (buf.drop P) _ _ hn]
        rw [hlen]
        have hc : ((buf.length - P : Nat) : Int) = (buf.length : Int) - P := by
          push_cast [le_of_lt hle]
          ring
        rw [hc]
        push_cast
        ring
  termination_by n => n

theorem packetLoop_succ (cb : Callback) (P : Nat) (r : Int) (n : Nat)
    (buf : List Nat) (total : Nat) :
    packetLoop cb P r (n + 1) buf total
      = ⟨(packetLoop cb P (cb ((buf.take (min buf.length P)).drop 2)
            ((min buf.length P : Nat) - 2)) n (buf.drop (min buf.length P))
            (addU64 total ((min buf.length P : Nat) - 2))).total,
          ⟨(buf.take (min buf.length P)).drop 2, ((min buf.length P : Nat) : Int) - 2⟩
            :: (packetLoop cb P (cb ((buf.take (min buf.length P)).drop 2)
                ((min buf.length P : Nat) - 2)) n (buf.drop (min buf.length P))
                (addU64 total ((min buf.length P : Nat) - 2))).deliveries,
          (packetLoop cb P (cb ((buf.take (min buf.length P)).drop 2)
            ((min buf.length P : Nat) - 2)) n (buf.drop (min buf.length P))
            (addU64 total ((min buf.length P : Nat) - 2))).res⟩ := rfl

theorem numPackets_mul (m P : Nat) (hP : 0 < P) : numPackets (m * P) P = m := by
  unfold numPackets
  refine Nat.div_eq_of_lt_le (by omega) ?_
  rw [Nat.add_mul, Nat.one_mul]
  omega

theorem numPackets_mul_add_one (m P : Nat) (hP : 0 < P) :
    numPackets (m * P + 1) P = m + 1 := by
  unfold numPackets
  have h : m * P + 1 + P - 1 = m * P + P := by omega
  rw [h]
  refine Nat.div_eq_of_lt_le (by rw [Nat.add_mul, Nat.one_mul]) ?_
  rw [Nat.add_mul, Nat.add_mul, Nat.one_mul]
  omega

theorem addU64_neg_one (t : Nat) (h1 : 1 ≤ t) (h2 : t < U64) :
    addU64 t (-1) = t - 1 := by
  unfold addU64
  have h0 : (0 : Int) ≤ (t : Int) + (-1) := by omega
  have hlt : (t : Int) + (-1) < ((U64 : Nat) : Int) := by omega
  rw [Int.emod_eq_of_lt h0 hlt]
  omega

theorem packetLoop_append_single (cb : Callback) (P : Nat) (hP : 2 ≤ P) (b : Nat) :
    ∀ (m : Nat) (front : List Nat) (r : Int) (total : Nat),
      front.length = m * P →
      packetLoop cb P r (numPackets (front.length + 1) P) (front ++ [b]) total
        = ⟨addU64 (packetLoop cb P r (numPackets front.length P)
              front total).total (-1),
            (packetLoop cb P r (numPackets front.length P)
              front total).deliveries ++ [⟨[], -1⟩],
            cb [] (-1)⟩
  | 0, front, r, total, hf => by
      have hfront : front = [] := List.length_eq_zero.mp (by omega)
      subst hfront
      simp only [List.nil_append, List.length_nil, Nat.zero_add]
      rw [numPackets_zero, packetLoop_zero,
        show numPackets 1 P = 1 from numPackets_one 1 P (by omega) (by omega),
        packetLoop_succ]
      rw [Nat.min_eq_left (show ([b] : List Nat).length ≤ P by simp; omega)]
      rw [packetLoop_zero]
      simp
  | m + 1, front, r, total, hf => by
      have hPel : P ≤ front.length := by
        rw [hf, Nat.succ_mul]
        omega
      have hfm : (front.drop P).length = m * P := by
        rw [List.length_drop, hf, Nat.succ_mul]
        omega
      have hfuelL : numPackets (front.length + 1) P = (m + 1) + 1 := by
        rw [hf]
        exact numPackets_mul_add_one (m + 1) P (by omega)
      have hfuelR : numPackets front.length P = m + 1 := by
        rw [hf]
        exact numPackets_mul (m + 1) P (by omega)
      have hminL : min (front ++ [b]).length P = P :=
        Nat.min_eq_right (by simp; omega)
      have hminR : min front.length P = P := Nat.min_eq_right hPel
      have htake : (front ++ [b]).take P = front.take P :=
        List.take_append_of_le_length hPel
      have hdrop : (front ++ [b]).drop P = front.drop P ++ [b] :=
        List.drop_append_of_le_length hPel
      rw [hfuelL, hfuelR, packetLoop_succ cb P r (m + 1) (front ++ [b]) total,
        packetLoop_succ cb P r m front total, hminL, hminR, htake, hdrop]
      have hq1 : numPackets ((front.drop P).length + 1) P = m + 1 := by
        rw [hfm]
        exact numPackets_mul_add_one m P (by omega)
      have ih := packetLoop_append_single cb P hP b m (front.drop P)
        (cb ((front.take P).drop 2) ((P : Nat) - 2))
        (addU64 total ((P : Nat) - 2)) hfm
      rw [hq1] at ih
      have hq2 : numPackets (front.drop P).length P = m := by
        rw [hfm]
        exact numPackets_mul m P (by omega)
      rw [hq2] at ih
      rw [ih]
      simp

theorem cb_deliveries (cb : Callback) (st : FTDIStreamState) (ev : CompletionEvent)
    (hst : ev.status = LIBUSB_TRANSFER_COMPLETED) :
    (ftdi_stream_read_cb cb st ev).deliveries
      = (packetLoop cb st.packetsize 0
          (numPackets ev.buf.length st.packetsize) ev.buf
          st.progress.current.total_bytes).deliveries := by
  unfold ftdi_stream_read_cb
  rw [if_pos hst]
  dsimp only
  split <;> rfl

theorem cb_total (cb : Callback) (st : FTDIStreamState) (ev : CompletionEvent)
    (hst : ev.status = LIBUSB_TRANSFER_COMPLETED) :
    (ftdi_stream_read_cb cb st ev).state.progress.current.total_bytes
      = (packetLoop cb st.packetsize 0
          (numPackets ev.buf.length st.packetsize) ev.buf
          st.progress.current.total_bytes).total := by
  unfold ftdi_stream_read_cb
  rw [if_pos hst]
  dsimp only
  split <;> rfl

theorem adoptDispatchErr_result (st : FTDIStreamState) (e : Int) :
    (adoptDispatchErr st e).result = if st.result = 0 then e else st.result := by
  unfold adoptDispatchErr; split <;> simp_all

theorem adoptDispatchErr_activity (st : FTDIStreamState) (e : Int) :
    (adoptDispatchErr st e).activity = st.activity := by
  unfold adoptDispatchErr; split <;> rfl

theorem stallCheck_result (st : FTDIStreamState) :
    (stallCheck st).result = if st.activity = 0 then 1 else st.result := by
  unfold stallCheck; split <;> simp_all

theorem stallCheck_activity (st : FTDIStreamState) :
    (stallCheck st).activity = if st.activity = 0 then st.activity else 0 := by
  unfold stallCheck; split <;> simp_all

theorem driverIter_result (cb : Callback) (st : FTDIStreamState) (it : LoopIter) :
    (driverIter cb st it).result
      = (stallCheck (adoptDispatchErr (handleEvents cb st it.events)
          (effectiveXferErr it))).result := by
  unfold driverIter; dsimp only; split <;> rfl

theorem driverIter_activity (cb : Callback) (st : FTDIStreamState) (it : LoopIter) :
    (driverIter cb st it).activity
      = (stallCheck (adoptDispatchErr (handleEvents cb st it.events)
          (effectiveXferErr it))).activity := by
  unfold driverIter; dsimp only; split <;> rfl

theorem cb_result_clean (cb : Callback) (st : FTDIStreamState) (ev : CompletionEvent)
    (hst : ev.status = LIBUSB_TRANSFER_COMPLETED) (hs : ev.submitRes = 0)
    (hr : st.result = 0) : (ftdi_stream_read_cb cb st ev).state.result = 0 := by
  unfold ftdi_stream_read_cb
  rw [if_pos hst]
  dsimp only
  split
  · exact hr
  · exact hs

theorem handleEvents_result_clean (cb : Callback) :
    ∀ (evs : List CompletionEvent) (st : FTDIStreamState), st.result = 0 →
      (∀ ev ∈ evs, ev.status = LIBUSB_TRANSFER_COMPLETED ∧ ev.submitRes = 0) →
      (handleEvents cb st evs).result = 0
  | [], st, hr, _ => hr
  | ev :: rest, st, hr, h => by
      have hev := h ev (List.mem_cons_self ev rest)
      exact handleEvents_result_clean cb rest _
        (cb_result_clean cb st ev hev.1 hev.2 hr)
        (fun e he => h e (List.mem_cons_of_mem ev he))

theorem clean_driverIter_result (cb : Callback) (st : FTDIStreamState) (it : LoopIter)
    (hc : cleanIter it) (hr : st.result = 0) :
    (driverIter cb st it).result = 0 ∨ (driverIter cb st it).result = 1 := by
  rw [driverIter_result]
  rw [stallCheck_result, adoptDispatchErr_result]
  rw [handleEvents_result_clean cb it.events st hr hc.2, hc.1]
  split <;> simp

theorem runSession_clean (cb : Callback) :
    ∀ (iters : List LoopIter) (st : FTDIStreamState), st.result = 0 →
      (∀ it ∈ iters, cleanIter it) →
      (runSession cb st iters).result = 0 ∨ (runSession cb st iters).result = 1
  | [], st, hr, _ => Or.inl hr
  | it :: rest, st, hr, h => by
      have hit := h it (List.mem_cons_self it rest)
      unfold runSession
      dsimp only
      rcases clean_driverIter_result cb st it hit hr with h0 | h1
      · rw [if_pos h0]
        exact runSession_clean cb rest _ h0 (fun i hi => h i (List.mem_cons_of_mem it hi))
      · rw [if_neg (by rw [h1]; decide)]
        exact Or.inr h1

theorem setupFrom_failed_err (env : SetupEnv) :
    ∀ (fuel i : Nat), (setupFrom env i fuel).failed = true →
      (setupFrom env i fuel).err ≠ 0
  | 0, i => by unfold setupFrom; simp
  | fuel + 1, i => by
      unfold setupFrom
      dsimp only
      split
      · intro _
        show LIBUSB_ERROR_NO_MEM ≠ 0
        decide
      · split
        · intro _
          show LIBUSB_ERROR_NO_MEM ≠ 0
          decide
        · split
          · intro _
            assumption
          · exact fun h => setupFrom_failed_err env fuel (i + 1) h

theorem addU64_nonneg (t k : Nat) (h : t + k < U64) :
    addU64 t (k : Int) = t + k := by
  unfold addU64
  have h0 : (0 : Int) ≤ (t : Int) + (k : Int) := by omega
  have hlt : (t : Int) + (k : Int) < ((U64 : Nat) : Int) := by omega
  rw [Int.emod_eq_of_lt h0 hlt]
  omega

theorem packetLoop_total_bounds (cb : Callback) (P : Nat) (hP : 2 ≤ P) :
    ∀ (n : Nat) (buf : List Nat) (r : Int) (total : Nat),
      n = numPackets buf.length P →
      buf.length % P ≠ 1 →
      total + buf.length < U64 →
      total ≤ (packetLoop cb P r n buf total).total ∧
      (packetLoop cb P r n buf total).total ≤ total + buf.length
  | 0, buf, r, total, _, _, _ => by
      rw [packetLoop_zero]
      exact ⟨le_refl total, Nat.le_add_right total buf.length⟩
  | n + 1, buf, r, total, hn, hmod, hbound => by
      have hL : 1 ≤ buf.length := by
        rcases Nat.eq_zero_or_pos buf.length with h0 | h1
        · rw [h0, numPackets_zero] at hn
          omega
        · exact h1
      rw [packetLoop_succ]
      dsimp only
      by_cases hle : buf.length ≤ P
      · have h1 : numPackets buf.length P = 1 := numPackets_one _ _ hL hle
        have hn0 : n = 0 := by omega
        subst hn0
        have hL2 : 2 ≤ buf.length := by
          rcases Nat.lt_or_ge buf.length P with hlt | hge
          · have := Nat.mod_eq_of_lt hlt
            omega
          · omega
        rw [Nat.min_eq_left hle]
        have hcast : ((buf.length : Nat) : Int) - 2
            = ((buf.length - 2 : Nat) : Int) := by omega
        rw [hcast, addU64_nonneg _ _ (by omega), packetLoop_zero]
        dsimp only
        omega
      · push_neg at hle
        rw [Nat.min_eq_right (le_of_lt hle)]
        have hcast : ((P : Nat) : Int) - 2 = ((P - 2 : Nat) : Int) := by omega
        rw [hcast, addU64_nonneg total (P - 2) (by omega)]
        have hlen : (buf.drop P).length = buf.length - P := List.length_drop P buf
        have hn' : n = numPackets (buf.drop P).length P := by
          rw [hlen]
          have := numPackets_succ buf.length P (by omega) hle
          omega
        have hmod' : (buf.drop P).length % P ≠ 1 := by
          rw [hlen, sub_mod_self _ _ (le_of_lt hle)]
          exact hmod
        have hbound' : total + (P - 2) + (buf.drop P).length < U64 := by
          rw [hlen]
          omega
        have ih := packetLoop_total_bounds cb P hP n (buf.drop P)
          (cb ((buf.take P).drop 2) ((P - 2 : Nat) : Int))
          (total + (P - 2)) hn' hmod' hbound'
        rw [hlen] at ih
        exact ⟨by omega, by omega⟩
  termination_by n => n

theorem cb_state_bounds (cb : Callback) (st : FTDIStreamState)
    (ev : CompletionEvent) (hP : 2 ≤ st.packetsize)
    (hmod : ev.buf.length % st.packetsize ≠ 1)
    (hbound : st.progress.current.total_bytes + ev.buf.length < U64) :
    (ftdi_stream_read_cb cb st ev).state.packetsize = st.packetsize ∧
    (ftdi_stream_read_cb cb st ev).state.progress.first = st.progress.first ∧
    (ftdi_stream_read_cb cb st ev).state.progress.prev = st.progress.prev ∧
    st.progress.current.total_bytes
      ≤ (ftdi_stream_read_cb cb st ev).state.progress.current.total_bytes ∧
    (ftdi_stream_read_cb cb st ev).state.progress.current.total_bytes
      ≤ st.progress.current.total_bytes + ev.buf.length := by
  unfold ftdi_stream_read_cb
  by_cases hst : ev.status = LIBUSB_TRANSFER_COMPLETED
  · rw [if_pos hst]
    dsimp only
    have hb := packetLoop_total_bounds cb st.packetsize hP
      (numPackets ev.buf.length st.packetsize) ev.buf 0
      st.progress.current.total_bytes rfl hmod hbound
    split
    · exact ⟨rfl, rfl, rfl, hb.1, hb.2⟩
    · exact ⟨rfl, rfl, rfl, hb.1, hb.2⟩
  · rw [if_neg hst]
    exact ⟨rfl, rfl, rfl, le_refl _, Nat.le_add_right _ _⟩

theorem sumLenEvents_cons (ev : CompletionEvent) (evs : List CompletionEvent) :
    sumLenEvents (ev :: evs) = ev.buf.length + sumLenEvents evs := by
  simp [sumLenEvents]

theorem handleEvents_bounds (cb : Callback) (P : Nat) (hP : 2 ≤ P) :
    ∀ (evs : List CompletionEvent) (st : FTDIStreamState),
      st.packetsize = P →
      (∀ ev ∈ evs, ev.buf.length % P ≠ 1) →
      st.progress.current.total_bytes + sumLenEvents evs < U64 →
      (handleEvents cb st evs).packetsize = P ∧
      (handleEvents cb st evs).progress.first = st.progress.first ∧
      (handleEvents cb st evs).progress.prev = st.progress.prev ∧
      st.progress.current.total_bytes
        ≤ (handleEvents cb st evs).progress.current.total_bytes ∧
      (handleEvents cb st evs).progress.current.total_bytes
        ≤ st.progress.current.total_bytes + sumLenEvents evs
  | [], st, hps, _, _ =>
      ⟨hps, rfl, rfl, le_refl _, Nat.le_add_right _ _⟩
  | ev :: rest, st, hps, hgood, hbound => by
      rw [show handleEvents cb st (ev :: rest)
          = handleEvents cb (ftdi_stream_read_cb cb st ev).state rest from rfl]
      have hsum := sumLenEvents_cons ev rest
      have hev : ev.buf.length % st.packetsize ≠ 1 := by
        rw [hps]
        exact hgood ev (List.mem_cons_self ev rest)
      have h1 := cb_state_bounds cb st ev (by rw [hps]; exact hP) hev (by omega)
      obtain ⟨hps1, hfirst1, hprev1, hlo1, hhi1⟩ := h1
      have ih := handleEvents_bounds cb P hP rest
        (ftdi_stream_read_cb cb st ev).state (by rw [hps1, hps])
        (fun e he => hgood e (List.mem_cons_of_mem ev he)) (by omega)
      obtain ⟨a, b, c, d, e⟩ := ih
      exact ⟨a, b.trans hfirst1, c.trans hprev1, le_trans hlo1 d, by omega⟩

theorem adoptDispatchErr_progress (st : FTDIStreamState) (e : Int) :
    (adoptDispatchErr st e).progress = st.progress := by
  unfold adoptDispatchErr
  split <;> rfl

theorem adoptDispatchErr_packetsize (st : FTDIStreamState) (e : Int) :
    (adoptDispatchErr st e).packetsize = st.packetsize := by
  unfold adoptDispatchErr
  split <;> rfl

theorem stallCheck_progress (st : FTDIStreamState) :
    (stallCheck st).progress = st.progress := by
  unfold stallCheck
  split <;> rfl

theorem stallCheck_packetsize (st : FTDIStreamState) :
    (stallCheck st).packetsize = st.packetsize := by
  unfold stallCheck
  split <;> rfl

theorem driverIter_bounds (cb : Callback) (P : Nat) (hP : 2 ≤ P)
    (st : FTDIStreamState) (it : LoopIter)
    (hps : st.packetsize = P) (hgood : goodIter P it)
    (hbound : st.progress.current.total_bytes + sumLenEvents it.events < U64) :
    (driverIter cb st it).packetsize = P ∧
    (driverIter cb st it).progress.first.total_bytes
      = st.progress.first.total_bytes ∧
    (progressInv st.progress → progressInv (driverIter cb st it).progress) ∧
    st.progress.current.total_bytes
      ≤ (driverIter cb st it).progress.current.total_bytes ∧
    (driverIter cb st it).progress.current.total_bytes
      ≤ st.progress.current.total_bytes + sumLenEvents it.events := by
  obtain ⟨hps1, hfirst1, hprev1, hlo1, hhi1⟩ :=
    handleEvents_bounds cb P hP it.events st hps hgood hbound
  unfold driverIter
  dsimp only
  have hprog : (stallCheck (adoptDispatchErr (handleEvents cb st it.events)
      (effectiveXferErr it))).progress = (handleEvents cb st it.events).progress := by
    rw [stallCheck_progress, adoptDispatchErr_progress]
  have hpsz : (stallCheck (adoptDispatchErr (handleEvents cb st it.events)
      (effectiveXferErr it))).packetsize
      = (handleEvents cb st it.events).packetsize := by
    rw [stallCheck_packetsize, adoptDispatchErr_packetsize]
  split
  · refine ⟨by rw [hpsz, hps1], ?_, ?_, ?_, ?_⟩
    · show (reportStep _ it.now).1.first.total_bytes = _
      rw [hprog, reportStep_first, hfirst1]
    · intro hInv
      constructor
      · show (reportStep _ it.now).1.first.total_bytes = 0
        rw [hprog, reportStep_first, hfirst1]
        exact hInv.1
      · show (reportStep _ it.now).1.prev.total_bytes
          ≤ (reportStep _ it.now).1.current.total_bytes
        rw [hprog, reportStep_prev_total, reportStep_current_total]
    · show _ ≤ (reportStep _ it.now).1.current.total_bytes
      rw [hprog, reportStep_current_total]
      exact hlo1
    · show (reportStep _ it.now).1.current.total_bytes ≤ _
      rw [hprog, reportStep_current_total]
      exact hhi1
  · refine ⟨by rw [hpsz, hps1], by rw [hprog, hfirst1], ?_, ?_, ?_⟩
    · intro hInv
      constructor
      · show (stallCheck _).progress.first.total_bytes = 0
        rw [hprog, hfirst1]
        exact hInv.1
      · show (stallCheck _).progress.prev.total_bytes
          ≤ (stallCheck _).progress.current.total_bytes
        rw [hprog, hprev1]
        exact le_trans hInv.2 hlo1
    · rw [hprog]
      exact hlo1
    · rw [hprog]
      exact hhi1

theorem sumLenIters_cons (it : LoopIter) (iters : List LoopIter) :
    sumLenIters (it :: iters) = sumLenEvents it.events + sumLenIters iters := by
  simp [sumLenIters]

theorem runSession_bounds (cb : Callback) (P : Nat) (hP : 2 ≤ P) :
    ∀ (iters : List LoopIter) (st : FTDIStreamState),
      st.packetsize = P →
      (∀ it ∈ iters, goodIter P it) →
      st.progress.current.total_bytes + sumLenIters iters < U64 →
      (runSession cb st iters).packetsize = P ∧
      (runSession cb st iters).progress.first.total_bytes
        = st.progress.first.total_bytes ∧
      (progressInv st.progress → progressInv (runSession cb st iters).progress) ∧
      st.progress.current.total_bytes
        ≤ (runSession cb st iters).progress.current.total_bytes ∧
      (runSession cb st iters).progress.current.total_bytes
        ≤ st.progress.current.total_bytes + sumLenIters iters
  | [], st, hps, _, _ =>
      ⟨hps, rfl, fun h => h, le_refl _, Nat.le_add_right _ _⟩
  | it :: rest, st, hps, hgood, hbound => by
      have hsum := sumLenIters_cons it rest
      have h1 := driverIter_bounds cb P hP st it hps
        (hgood it (List.mem_cons_self it rest)) (by omega)
      obtain ⟨hps1, hfirst1, hInv1, hlo1, hhi1⟩ := h1
      rw [show runSession cb st (it :: rest)
          = if (driverIter cb st it).result = 0
            then runSession cb (driverIter cb st it) rest
            else driverIter cb st it from rfl]
      split
      · have ih := runSession_bounds cb P hP rest (driverIter cb st it) hps1
          (fun i hi => hgood i (List.mem_cons_of_mem it hi)) (by omega)
        obtain ⟨a, b, c, d, e⟩ := ih
        exact ⟨a, b.trans hfirst1, fun h => c (hInv1 h), le_trans hlo1 d, by omega⟩
      · exact ⟨hps1, hfirst1, hInv1, hlo1, by omega⟩

theorem runSession_append (cb : Callback) :
    ∀ (l1 l2 : List LoopIter) (st : FTDIStreamState),
      runSession cb st (l1 ++ l2) = runSession cb (runSession cb st l1) l2 ∨
      runSession cb st (l1 ++ l2) = runSession cb st l1
  | [], l2, st => Or.inl rfl
  | it :: l1, l2, st => by
      rw [List.cons_append]
      rw [show runSession cb st (it :: (l1 ++ l2))
          = if (driverIter cb st it).result = 0
            then runSession cb (driverIter cb st it) (l1 ++ l2)
            else driverIter cb st it from rfl]
      rw [show runSession cb st (it :: l1)
          = if (driverIter cb st it).result = 0
            then runSession cb (driverIter cb st it) l1
            else driverIter cb st it from rfl]
      by_cases h : (driverIter cb st it).result = 0
      · rw [if_pos h, if_pos h]
        exact runSession_append cb l1 l2 (driverIter cb st it)
      · rw [if_neg h, if_neg h]
        exact Or.inr rfl

/-! ## Claims -/

/-- C1: on a success-status completion of actual length `L` with packet size
`P` (both positive), the handler invokes the consumer callback exactly
`ceil(L/P) = (L + P - 1) / P` times; the `i`-th invocation covers the packet
of size `min(remaining, P) = min(L - i*P, P)`, passing the packet's bytes
after the first 2 header bytes with length argument `packetLen - 2`; the
delivered payload lengths sum to `L - 2 * ceil(L/P)`. -/
theorem C1_packet_split (cb : Callback) (st : FTDIStreamState)
    (ev : CompletionEvent) (hP : 0 < st.packetsize) (_hL : 0 < ev.buf.length)
    (hst : ev.status = LIBUSB_TRANSFER_COMPLETED) :
    (ftdi_stream_read_cb cb st ev).deliveries.length
        = numPackets ev.buf.length st.packetsize ∧
    (ftdi_stream_read_cb cb st ev).deliveries
        = (List.range (numPackets ev.buf.length st.packetsize)).map (fun i =>
            ⟨((ev.buf.drop (i * st.packetsize)).take
                (min (ev.buf.length - i * st.packetsize) st.packetsize)).drop 2,
              ((min (ev.buf.length - i * st.packetsize) st.packetsize : Nat)
                : Int) - 2⟩) ∧
    ((ftdi_stream_read_cb cb st ev).deliveries.map Delivery.len).sum
        = (ev.buf.length : Int)
            - 2 * (numPackets ev.buf.length st.packetsize) := by
  rw [cb_deliveries cb st ev hst]
  exact ⟨packetLoop_len cb st.packetsize _ _ _ _,
    packetLoop_deliveries cb st.packetsize hP _ ev.buf _ _ rfl,
    packetLoop_sum cb st.packetsize hP _ ev.buf _ _ rfl⟩

/-- C1 witness: the theorem applied to a 5-byte completion with packet size
2 (3 packets of sizes 2, 2, 1; payload lengths 0, 0, −1 summing to
5 − 2·3 = −1). -/
theorem C1_witness :
    (0 < (initState 2 0).packetsize ∧
      0 < (⟨0, [1, 2, 3, 4, 5], 0⟩ : CompletionEvent).buf.length ∧
      (⟨0, [1, 2, 3, 4, 5], 0⟩ : CompletionEvent).status
        = LIBUSB_TRANSFER_COMPLETED) ∧
    ((ftdi_stream_read_cb cbZero (initState 2 0)
          ⟨0, [1, 2, 3, 4, 5], 0⟩).deliveries.length
        = numPackets (⟨0, [1, 2, 3, 4, 5], 0⟩ : CompletionEvent).buf.length
            (initState 2 0).packetsize ∧
      (ftdi_stream_read_cb cbZero (initState 2 0)
          ⟨0, [1, 2, 3, 4, 5], 0⟩).deliveries
        = (List.range (numPackets
            (⟨0, [1, 2, 3, 4, 5], 0⟩ : CompletionEvent).buf.length
            (initState 2 0).packetsize)).map (fun i =>
            ⟨(((⟨0, [1, 2, 3, 4, 5], 0⟩ : CompletionEvent).buf.drop
                  (i * (initState 2 0).packetsize)).take
                (min ((⟨0, [1, 2, 3, 4, 5], 0⟩ : CompletionEvent).buf.length
                    - i * (initState 2 0).packetsize)
                  (initState 2 0).packetsize)).drop 2,
              ((min ((⟨0, [1, 2, 3, 4, 5], 0⟩ : CompletionEvent).buf.length
                  - i * (initState 2 0).packetsize)
                  (initState 2 0).packetsize : Nat) : Int) - 2⟩) ∧
      ((ftdi_stream_read_cb cbZero (initState 2 0)
          ⟨0, [1, 2, 3, 4, 5], 0⟩).deliveries.map Delivery.len).sum
        = ((⟨0, [1, 2, 3, 4, 5], 0⟩ : CompletionEvent).buf.length : Int)
            - 2 * (numPackets
              (⟨0, [1, 2, 3, 4, 5], 0⟩ : CompletionEvent).buf.length
              (initState 2 0).packetsize)) :=
  ⟨⟨by decide, by decide, by decide⟩,
    C1_packet_split cbZero (initState 2 0) ⟨0, [1, 2, 3, 4, 5], 0⟩
      (by decide) (by decide) (by decide)⟩

/-- C2 counterexample.  `envC2` is a session in which setup fully succeeds
and the only terminal cause is a consumer-requested stop (the callback
returns 1 on the first data delivery; every transport operation succeeds,
no I/O error occurs).  The claim says `ftdi_stream_read` returns 0 here; in
fact the stopped transfer leaves `state.result` untouched, the next
iteration finds `activity == 0` and sets `state.result = 1`, and the
function returns 1. -/
theorem C2_counterexample :
    ftdi_stream_read cbOne 4 1 envC2 = 1 ∧
    ¬ ftdi_stream_read cbOne 4 1 envC2 = 0 := by decide

/-- C2 (amended): on a session where the pool is set up successfully and no
I/O error of any kind occurs (all dispatch calls succeed, all completions
succeed, all resubmissions succeed — the session can only end because the
consumer requested stop and the pool drained), a terminating
`ftdi_stream_read` returns 1 (the no-activity stop code), not 0.  Moreover a
pool-setup failure makes it return the nonzero setup error, and whenever the
streaming loop runs, the return value is exactly the loop's sticky result
(nonzero on I/O failure or stall by the loop exit condition). -/
theorem C2_return_amended :
    (∀ (cb : Callback) (P n : Nat) (env : ReadEnv),
      env.typeSupported = true → env.resetOk = true → env.flushOk = true →
      env.setup.callocOk = true → (setupLoop env.setup n).failed = false →
      env.syncffOk = true →
      (∀ it ∈ env.iters, cleanIter it) →
      (runSession cb (initState P env.t0) env.iters).result ≠ 0 →
      ftdi_stream_read cb P n env = 1) ∧
    (∀ (cb : Callback) (P n : Nat) (env : ReadEnv),
      env.typeSupported = true → env.resetOk = true → env.flushOk = true →
      env.setup.callocOk = true → (setupLoop env.setup n).failed = true →
      ftdi_stream_read cb P n env = (setupLoop env.setup n).err ∧
        (setupLoop env.setup n).err ≠ 0) ∧
    (∀ (cb : Callback) (P n : Nat) (env : ReadEnv),
      env.typeSupported = true → env.resetOk = true → env.flushOk = true →
      env.setup.callocOk = true → (setupLoop env.setup n).failed = false →
      env.syncffOk = true →
      ftdi_stream_read cb P n env
        = (runSession cb (initState P env.t0) env.iters).result) := by
  refine ⟨?_, ?_, ?_⟩
  · intro cb P n env h1 h2 h3 h4 h5 h6 hclean hterm
    unfold ftdi_stream_read
    simp only [h1, h2, h3, h4, h5, h6]
    rcases runSession_clean cb env.iters (initState P env.t0) rfl hclean with h0 | hone
    · exact absurd h0 hterm
    · simp [cleanupReturn, hone]
  · intro cb P n env h1 h2 h3 h4 h5
    unfold ftdi_stream_read
    have herr := setupFrom_failed_err env.setup n 0 h5
    simp only [h1, h2, h3, h4, h5]
    refine ⟨?_, herr⟩
    simp [cleanupReturn, setupLoop, herr]
  · intro cb P n env h1 h2 h3 h4 h5 h6
    unfold ftdi_stream_read
    simp [h1, h2, h3, h4, h5, h6, cleanupReturn]

/-- C2 witness: the amended theorem applied to the concrete clean-stop
session `envC2`. -/
theorem C2_amended_witness :
    ((∀ it ∈ envC2.iters, cleanIter it) ∧
      (runSession cbOne (initState 4 envC2.t0) envC2.iters).result ≠ 0) ∧
    ftdi_stream_read cbOne 4 1 envC2 = 1 :=
  ⟨⟨by decide, by decide⟩,
    C2_return_amended.1 cbOne 4 1 envC2 (by decide) (by decide) (by decide)
      (by decide) (by decide) (by decide) (by decide) (by decide)⟩

/-- C3 counterexample.  Two completions inside one dispatch call: the first
carries an error status, setting `state.result = LIBUSB_ERROR_IO`; the
second succeeds and is resubmitted, and line 122
(`state->result = libusb_submit_transfer(transfer)`) overwrites the sticky
error with the successful submit result 0.  The result code is therefore
not sticky: it is reset to 0 by a later successful resubmission. -/
theorem C3_counterexample :
    (handleEvents cbZero (initState 4 0) [⟨2, [], 0⟩]).result = LIBUSB_ERROR_IO ∧
    LIBUSB_ERROR_IO ≠ (0 : Int) ∧
    (handleEvents cbZero (initState 4 0) [⟨2, [], 0⟩, ⟨0, [], 0⟩]).result = 0 := by
  decide

/-- C3 (amended): only the dispatch-error adoption (lines 267-270) is
guarded by an existing result; the completion handler's resubmission path
stores the submit outcome into `state.result` unconditionally (line 122,
shown here for an empty completed buffer, overwriting any prior value), and
the stall check (line 272) sets `state.result = 1` whenever the activity
counter is zero, regardless of the prior result. -/
theorem C3_sticky_amended :
    (∀ (st : FTDIStreamState) (e : Int), st.result ≠ 0 → adoptDispatchErr st e = st) ∧
    (∀ (cb : Callback) (st : FTDIStreamState) (ev : CompletionEvent),
      ev.status = LIBUSB_TRANSFER_COMPLETED → ev.buf = [] →
      (ftdi_stream_read_cb cb st ev).state.result = ev.submitRes) ∧
    (∀ st : FTDIStreamState, st.activity = 0 → (stallCheck st).result = 1) := by
  refine ⟨?_, ?_, ?_⟩
  · intro st e h
    unfold adoptDispatchErr
    rw [if_neg h]
  · intro cb st ev hst hbuf
    unfold ftdi_stream_read_cb
    rw [if_pos hst]
    simp [hbuf, numPackets_zero, packetLoop]
  · intro st h
    unfold stallCheck
    rw [if_pos h]

/-- C3 witness: the amended theorem applied at concrete states: a state with
sticky result −1 survives dispatch-error adoption; an empty successful
completion with submit outcome 7 overwrites a sticky result −1 with 7; a
zero-activity state gets result 1. -/
theorem C3_amended_witness :
    adoptDispatchErr ⟨4, 0, -1, (initState 4 0).progress⟩ 5
        = ⟨4, 0, -1, (initState 4 0).progress⟩ ∧
    (ftdi_stream_read_cb cbZero ⟨4, 0, -1, (initState 4 0).progress⟩
        ⟨0, [], 7⟩).state.result = 7 ∧
    (stallCheck ⟨4, 0, 0, (initState 4 0).progress⟩).result = 1 :=
  ⟨C3_sticky_amended.1 ⟨4, 0, -1, (initState 4 0).progress⟩ 5 (by decide),
    C3_sticky_amended.2.1 cbZero ⟨4, 0, -1, (initState 4 0).progress⟩ ⟨0, [], 7⟩
      (by decide) (by decide),
    C3_sticky_amended.2.2 ⟨4, 0, 0, (initState 4 0).progress⟩ (by decide)⟩

/-- C4 counterexample.  A completion with a non-success status (here
`LIBUSB_TRANSFER_TIMED_OUT` = 2) takes the `else` branch of lines 125-129:
the handler records `LIBUSB_ERROR_IO` and returns without either
resubmitting the transfer or releasing its buffer — "neither" happens,
contradicting the exactly-once claim. -/
theorem C4_counterexample :
    (ftdi_stream_read_cb cbZero (initState 4 0) ⟨2, [], 0⟩).action
        ≠ BufferAction.released ∧
    (ftdi_stream_read_cb cbZero (initState 4 0) ⟨2, [], 0⟩).action
        ≠ BufferAction.resubmitted := by decide

/-- C4 (amended): on success-status completions exactly one of
resubmit/release occurs (release when the last consumer return was nonzero,
resubmit otherwise); on non-success completions the handler performs
neither — the transfer is left outstanding and its buffer is never freed by
the handler. -/
theorem C4_exactly_one_amended (cb : Callback) (st : FTDIStreamState)
    (ev : CompletionEvent) :
    (ev.status = LIBUSB_TRANSFER_COMPLETED →
      (ftdi_stream_read_cb cb st ev).action = BufferAction.released ∨
      (ftdi_stream_read_cb cb st ev).action = BufferAction.resubmitted) ∧
    (ev.status ≠ LIBUSB_TRANSFER_COMPLETED →
      (ftdi_stream_read_cb cb st ev).action = BufferAction.noAction) := by
  constructor
  · intro h
    unfold ftdi_stream_read_cb
    rw [if_pos h]
    dsimp only
    split
    · exact Or.inl rfl
    · exact Or.inr rfl
  · intro h
    unfold ftdi_stream_read_cb
    rw [if_neg h]

/-- C4 witness: the amended theorem applied at a successful 4-byte
completion (resubmitted) and at an error-status completion (no action). -/
theorem C4_amended_witness :
    ((ftdi_stream_read_cb cbZero (initState 4 0) ⟨0, [1, 2, 3, 4], 0⟩).action
        = BufferAction.released ∨
      (ftdi_stream_read_cb cbZero (initState 4 0) ⟨0, [1, 2, 3, 4], 0⟩).action
        = BufferAction.resubmitted) ∧
    (ftdi_stream_read_cb cbZero (initState 4 0) ⟨2, [], 0⟩).action
        = BufferAction.noAction :=
  ⟨(C4_exactly_one_amended cbZero (initState 4 0) ⟨0, [1, 2, 3, 4], 0⟩).1 (by decide),
    (C4_exactly_one_amended cbZero (initState 4 0) ⟨2, [], 0⟩).2 (by decide)⟩

/-- C5 counterexample.  With packet size 4: a first successful completion of
4 bytes raises `current.total_bytes` from 0 to 2; a second successful
completion of 1 byte (a final packet shorter than the 2-byte header) adds
`payloadLen = 1 - 2 = -1`, and the counter drops from 2 to 1 — it is not
monotonically non-decreasing. -/
theorem C5_counterexample :
    (ftdi_stream_read_cb cbZero (initState 4 0)
        ⟨0, [1, 2, 3, 4], 0⟩).state.progress.current.total_bytes = 2 ∧
    (ftdi_stream_read_cb cbZero
        (ftdi_stream_read_cb cbZero (initState 4 0) ⟨0, [1, 2, 3, 4], 0⟩).state
        ⟨0, [9], 0⟩).state.progress.current.total_bytes = 1 := by decide

/-- C6 counterexample.  A session in which the reporting interval elapses
twice but no payload bytes were accumulated (e.g. all completions carried
`actual_length` 0): the rate branch is gated on `prev.total_bytes` being
nonzero (line 284), not on this being the second or later report, so the
second report still computes no rates — contradicting the claim that the
second report always exposes rates once the clock has advanced past the
interval twice. -/
theorem C6_counterexample :
    timespec_diff 5 (initState 4 0).progress.current.time ≥ progressInterval ∧
    timespec_diff 10 ((reportStep (initState 4 0).progress 5).1).current.time
      ≥ progressInterval ∧
    (reportStep (initState 4 0).progress 5).2 = false ∧
    (reportStep ((reportStep (initState 4 0).progress 5).1) 10).2 = false := by
  decide

/-- C10: on a success-status completion whose buffer is `front ++ [b]` with
`front.length` a multiple of the packet size `P ≥ 2` (equivalently, actual
length `L ≡ 1 (mod P)`: the final packet is a single byte), the handler's
final iteration computes `payloadLen = 1 - 2 = -1`: the consumer callback is
invoked once more with length argument −1 (and no payload bytes), and the
`uint64_t` progress counter is updated by adding −1 mod `2^64` — an actual
decrease by 1 whenever its running value is in `[1, 2^64)`.  Nothing guards
`packetLen - 2` against packets shorter than the 2-byte header. -/
theorem C10_short_final_packet (cb : Callback) (st : FTDIStreamState)
    (ev : CompletionEvent) (front : List Nat) (b : Nat)
    (hP : 2 ≤ st.packetsize) (hst : ev.status = LIBUSB_TRANSFER_COMPLETED)
    (hbuf : ev.buf = front ++ [b])
    (hfront : front.length % st.packetsize = 0) :
    ev.buf.length % st.packetsize = 1 ∧
    (ftdi_stream_read_cb cb st ev).deliveries
      = (packetLoop cb st.packetsize 0
          (numPackets front.length st.packetsize) front
          st.progress.current.total_bytes).deliveries ++ [⟨[], -1⟩] ∧
    (ftdi_stream_read_cb cb st ev).state.progress.current.total_bytes
      = addU64 (packetLoop cb st.packetsize 0
          (numPackets front.length st.packetsize) front
          st.progress.current.total_bytes).total (-1) ∧
    (1 ≤ (packetLoop cb st.packetsize 0
          (numPackets front.length st.packetsize) front
          st.progress.current.total_bytes).total →
      (packetLoop cb st.packetsize 0
          (numPackets front.length st.packetsize) front
          st.progress.current.total_bytes).total < U64 →
      (ftdi_stream_read_cb cb st ev).state.progress.current.total_bytes
        = (packetLoop cb st.packetsize 0
            (numPackets front.length st.packetsize) front
            st.progress.current.total_bytes).total - 1) := by
  have hm : front.length = (front.length / st.packetsize) * st.packetsize :=
    (Nat.div_mul_cancel (Nat.dvd_of_mod_eq_zero hfront)).symm
  have hlen2 : (front ++ [b]).length = front.length + 1 := by simp
  have key := packetLoop_append_single cb st.packetsize hP b
    (front.length / st.packetsize) front 0 st.progress.current.total_bytes hm
  have part1 : ev.buf.length % st.packetsize = 1 := by
    rw [hbuf, hlen2]
    conv_lhs => rw [hm]
    rw [Nat.add_comm, Nat.add_mul_mod_self_right]
    exact Nat.mod_eq_of_lt (by omega)
  have part2 : (ftdi_stream_read_cb cb st ev).deliveries
      = (packetLoop cb st.packetsize 0
          (numPackets front.length st.packetsize) front
          st.progress.current.total_bytes).deliveries ++ [⟨[], -1⟩] := by
    rw [cb_deliveries cb st ev hst, hbuf, hlen2, key]
  have part3 : (ftdi_stream_read_cb cb st ev).state.progress.current.total_bytes
      = addU64 (packetLoop cb st.packetsize 0
          (numPackets front.length st.packetsize) front
          st.progress.current.total_bytes).total (-1) := by
    rw [cb_total cb st ev hst, hbuf, hlen2, key]
  refine ⟨part1, part2, part3, fun h1 h2 => ?_⟩
  rw [part3]
  exact addU64_neg_one _ h1 h2

/-- C10 witness: the theorem applied at packet size 2 and buffer
`[1, 2, 3]` (front `[1, 2]`, final 1-byte packet `[3]`) from a state whose
progress counter already holds 5 bytes: the final delivery has length −1 and
the counter drops from 5 to 4. -/
theorem C10_witness :
    (2 ≤ (stC10 : FTDIStreamState).packetsize ∧
      (⟨0, [1, 2, 3], 0⟩ : CompletionEvent).status = LIBUSB_TRANSFER_COMPLETED ∧
      (⟨0, [1, 2, 3], 0⟩ : CompletionEvent).buf = [1, 2] ++ [3] ∧
      ([1, 2] : List Nat).length % stC10.packetsize = 0 ∧
      1 ≤ (packetLoop cbZero stC10.packetsize 0
          (numPackets ([1, 2] : List Nat).length stC10.packetsize) [1, 2]
          stC10.progress.current.total_bytes).total ∧
      (packetLoop cbZero stC10.packetsize 0
          (numPackets ([1, 2] : List Nat).length stC10.packetsize) [1, 2]
          stC10.progress.current.total_bytes).total < U64) ∧
    (ftdi_stream_read_cb cbZero stC10
        ⟨0, [1, 2, 3], 0⟩).state.progress.current.total_bytes
      = (packetLoop cbZero stC10.packetsize 0
          (numPackets ([1, 2] : List Nat).length stC10.packetsize) [1, 2]
          stC10.progress.current.total_bytes).total - 1 ∧
    (ftdi_stream_read_cb cbZero stC10 ⟨0, [1, 2, 3], 0⟩).deliveries
      = (packetLoop cbZero stC10.packetsize 0
          (numPackets ([1, 2] : List Nat).length stC10.packetsize) [1, 2]
          stC10.progress.current.total_bytes).deliveries ++ [⟨[], -1⟩] :=
  ⟨⟨by decide, by decide, by decide, by decide, by decide, by decide⟩,
    (C10_short_final_packet cbZero stC10 ⟨0, [1, 2, 3], 0⟩ [1, 2] 3
        (by decide) (by decide) (by decide) (by decide)).2.2.2
      (by decide) (by decide),
    (C10_short_final_packet cbZero stC10 ⟨0, [1, 2, 3], 0⟩ [1, 2] 3
        (by decide) (by decide) (by decide) (by decide)).2.1⟩

/-- C5 (amended): the progress-record invariant
`current.total_bytes ≥ prev.total_bytes ≥ first.total_bytes = 0` holds after
every prefix of a session, and `current.total_bytes` never decreases across
completion-handler invocations and periodic-report steps, PROVIDED (as the
counterexample forces) the packet size is at least 2, no success completion
has an actual length `≡ 1 (mod P)` (i.e. no packet shorter than the 2-byte
header, which would contribute `payloadLen = -1`), and the accumulated byte
count stays below `2^64` (no `uint64_t` wrap-around). -/
theorem C5_progress_monotone_amended (cb : Callback) (P : Nat) (t0 : Int)
    (l1 l2 : List LoopIter) (hP : 2 ≤ P)
    (hgood : ∀ it ∈ l1 ++ l2, goodIter P it)
    (hbound : sumLenIters (l1 ++ l2) < U64) :
    progressInv (runSession cb (initState P t0) l1).progress ∧
    progressInv (runSession cb (initState P t0) (l1 ++ l2)).progress ∧
    (runSession cb (initState P t0) l1).progress.current.total_bytes
      ≤ (runSession cb (initState P t0) (l1 ++ l2)).progress.current.total_bytes := by
  have hg1 : ∀ it ∈ l1, goodIter P it :=
    fun it h => hgood it (List.mem_append_left _ h)
  have hg2 : ∀ it ∈ l2, goodIter P it :=
    fun it h => hgood it (List.mem_append_right _ h)
  have hsum : sumLenIters (l1 ++ l2) = sumLenIters l1 + sumLenIters l2 := by
    simp [sumLenIters]
  have h0 : (initState P t0).progress.current.total_bytes = 0 := rfl
  have hInv0 : progressInv (initState P t0).progress := ⟨rfl, le_refl 0⟩
  have r1 := runSession_bounds cb P hP l1 (initState P t0) rfl hg1 (by omega)
  have rfull := runSession_bounds cb P hP (l1 ++ l2) (initState P t0) rfl hgood
    (by omega)
  refine ⟨r1.2.2.1 hInv0, rfull.2.2.1 hInv0, ?_⟩
  rcases runSession_append cb l1 l2 (initState P t0) with hc | hc
  · rw [hc]
    have hb1 := r1.2.2.2.2
    have r2 := runSession_bounds cb P hP l2 (runSession cb (initState P t0) l1)
      r1.1 hg2 (by omega)
    exact r2.2.2.2.1
  · rw [hc]

/-- C5 witness: the amended theorem applied to a concrete session: one
iteration delivering a 4-byte completion (packet size 4, payload 2 bytes)
followed by one empty iteration. -/
theorem C5_amended_witness :
    (2 ≤ 4 ∧ (∀ it ∈ ([⟨0, 0, [⟨0, [1, 2, 3, 4], 0⟩], 1⟩] ++ [⟨0, 0, [], 2⟩]
          : List LoopIter), goodIter 4 it) ∧
      sumLenIters ([⟨0, 0, [⟨0, [1, 2, 3, 4], 0⟩], 1⟩] ++ [⟨0, 0, [], 2⟩]) < U64) ∧
    (progressInv (runSession cbZero (initState 4 0)
        [⟨0, 0, [⟨0, [1, 2, 3, 4], 0⟩], 1⟩]).progress ∧
      progressInv (runSession cbZero (initState 4 0)
        ([⟨0, 0, [⟨0, [1, 2, 3, 4], 0⟩], 1⟩] ++ [⟨0, 0, [], 2⟩])).progress ∧
      (runSession cbZero (initState 4 0)
          [⟨0, 0, [⟨0, [1, 2, 3, 4], 0⟩], 1⟩]).progress.current.total_bytes
        ≤ (runSession cbZero (initState 4 0)
            ([⟨0, 0, [⟨0, [1, 2, 3, 4], 0⟩], 1⟩]
              ++ [⟨0, 0, [], 2⟩])).progress.current.total_bytes) :=
  ⟨⟨by decide, by decide, by decide⟩,
    C5_progress_monotone_amended cbZero 4 0
      [⟨0, 0, [⟨0, [1, 2, 3, 4], 0⟩], 1⟩] [⟨0, 0, [], 2⟩]
      (by decide) (by decide) (by decide)⟩

/-- C6 (amended): the rate branch of the periodic report is gated on
`prev.total_bytes != 0` (line 284), not on the report count.  Consequently:
no rates are ever computed on the first report of a session (the
zero-initialized `prev` snapshot has 0 bytes); a report computes rates
exactly when the byte count snapshotted at the previous report was nonzero;
in particular the second report computes rates if and only if some payload
bytes had accumulated before the first report (a session whose completions
carry no payload never gets rates, no matter how often the interval
elapses). -/
theorem C6_rates_amended :
    (∀ (P : Nat) (t0 now : Int),
      (reportStep (initState P t0).progress now).2 = false) ∧
    (∀ (p : ftdi_stream_progress) (now : Int),
      (reportStep p now).2 = true ↔ p.prev.total_bytes ≠ 0) ∧
    (∀ (p : ftdi_stream_progress) (now1 now2 : Int),
      (reportStep (reportStep p now1).1 now2).2 = true
        ↔ p.current.total_bytes ≠ 0) := by
  refine ⟨?_, reportStep_snd, ?_⟩
  · intro P t0 now
    by_contra hb
    have h2 : (reportStep (initState P t0).progress now).2 = true := by
      cases h : (reportStep (initState P t0).progress now).2
      · exact absurd h hb
      · rfl
    exact (reportStep_snd _ now).1 h2 rfl
  · intro p now1 now2
    rw [reportStep_snd, reportStep_prev_total]

/-- C7: the stall check (lines 271-274): a zero activity counter sets the
result to the stop code 1 (and since the do-while loop runs on
`!state.result`, the loop then terminates); a nonzero activity counter is
reset to 0 with the result untouched.  Consequently, a session whose
transport delivers no completions at all terminates after exactly two
iterations (the initial `activity = 1` of line 170 absorbs the first one)
with the stall status 1, and later iterations are never executed. -/
theorem C7_stall_detection :
    (∀ st : FTDIStreamState,
      (st.activity = 0 → (stallCheck st).result = 1) ∧
      (st.activity ≠ 0 →
        (stallCheck st).activity = 0 ∧ (stallCheck st).result = st.result)) ∧
    (∀ (cb : Callback) (P : Nat) (t0 : Int) (it1 it2 : LoopIter)
        (rest : List LoopIter),
      it1.events = [] → it2.events = [] →
      effectiveXferErr it1 = 0 → effectiveXferErr it2 = 0 →
      runSession cb (initState P t0) (it1 :: it2 :: rest)
          = driverIter cb (driverIter cb (initState P t0) it1) it2 ∧
        (driverIter cb (driverIter cb (initState P t0) it1) it2).result = 1) := by
  constructor
  · intro st
    constructor
    · intro h
      rw [stallCheck_result, if_pos h]
    · intro h
      rw [stallCheck_activity, stallCheck_result, if_neg h, if_neg h]
      exact ⟨rfl, rfl⟩
  · intro cb P t0 it1 it2 rest h1 h2 he1 he2
    have hr1 : (driverIter cb (initState P t0) it1).result = 0 := by
      rw [driverIter_result]
      simp [h1, handleEvents_nil, stallCheck_result, adoptDispatchErr_result,
        adoptDispatchErr_activity, he1, initState]
    have ha1 : (driverIter cb (initState P t0) it1).activity = 0 := by
      rw [driverIter_activity]
      simp [h1, handleEvents_nil, stallCheck_activity,
        adoptDispatchErr_activity, initState]
    have hr2 : (driverIter cb (driverIter cb (initState P t0) it1) it2).result
        = 1 := by
      rw [driverIter_result]
      simp [h2, handleEvents_nil, stallCheck_result, adoptDispatchErr_result,
        adoptDispatchErr_activity, ha1]
    refine ⟨?_, hr2⟩
    rw [show runSession cb (initState P t0) (it1 :: it2 :: rest)
        = if (driverIter cb (initState P t0) it1).result = 0
          then runSession cb (driverIter cb (initState P t0) it1) (it2 :: rest)
          else driverIter cb (initState P t0) it1 from rfl,
      if_pos hr1,
      show runSession cb (driverIter cb (initState P t0) it1) (it2 :: rest)
        = if (driverIter cb (driverIter cb (initState P t0) it1) it2).result = 0
          then runSession cb
            (driverIter cb (driverIter cb (initState P t0) it1) it2) rest
          else driverIter cb (driverIter cb (initState P t0) it1) it2 from rfl,
      if_neg (by rw [hr2]; decide)]

/-- C7 witness: the theorem applied to a concrete session with two empty
iterations followed by a third iteration that is provably never executed. -/
theorem C7_witness :
    (itEmpty1.events = [] ∧ itEmpty2.events = [] ∧
      effectiveXferErr itEmpty1 = 0 ∧ effectiveXferErr itEmpty2 = 0) ∧
    (runSession cbZero (initState 4 0) [itEmpty1, itEmpty2, itEmpty3]
        = driverIter cbZero (driverIter cbZero (initState 4 0) itEmpty1) itEmpty2 ∧
      (driverIter cbZero (driverIter cbZero (initState 4 0) itEmpty1)
          itEmpty2).result = 1) :=
  ⟨⟨rfl, rfl, by decide, by decide⟩,
    C7_stall_detection.2 cbZero 4 0 itEmpty1 itEmpty2 [itEmpty3] rfl rfl
      (by decide) (by decide)⟩

/-- C8: the claim matches the code's own cleanup comment (lines 306-308,
"Cancel any outstanding transfers, and free memory") but not the code.  At
the failing input `num_transfers = 2` with the buffer `malloc` for index 1
failing: the setup loop aborts with `LIBUSB_ERROR_NO_MEM`, at which point
buffer 0 and transfer objects 0 and 1 have been created, yet the `cleanup:`
block (lines 310-313) frees only the `transfers` pointer array — it releases
no per-slot buffer and no transfer object, so buffer 0 and both transfer
objects leak. -/
theorem C8_cleanup_leak :
    (setupLoop ⟨true, [true, true], [true, false], [0, 0]⟩ 2).failed = true ∧
    (setupLoop ⟨true, [true, true], [true, false], [0, 0]⟩ 2).err
      = LIBUSB_ERROR_NO_MEM ∧
    (setupLoop ⟨true, [true, true], [true, false], [0, 0]⟩ 2).buffersAllocated
      = [0] ∧
    (setupLoop ⟨true, [true, true], [true, false], [0, 0]⟩ 2).transfersAllocated
      = [0, 1] ∧
    (cleanupBlock true).buffersFreed = [] ∧
    (cleanupBlock true).transfersFreed = [] := by decide

/-- C9: if the switch to `BITMODE_SYNCFF` (lines 241-246) fails after the
whole pool was allocated and submitted successfully, the code jumps to
cleanup with `err = 0` (the last successful submit) and `state.result = 0`
(never touched), so `ftdi_stream_read` returns 0 — success — although
streaming never started. -/
theorem C9_syncff_failure_returns_zero (cb : Callback) (P num_transfers : Nat)
    (env : ReadEnv)
    (h1 : env.typeSupported = true) (h2 : env.resetOk = true)
    (h3 : env.flushOk = true) (h4 : env.setup.callocOk = true)
    (h5 : (setupLoop env.setup num_transfers).failed = false)
    (h6 : env.syncffOk = false) :
    ftdi_stream_read cb P num_transfers env = 0 := by
  unfold ftdi_stream_read
  simp [h1, h2, h3, h4, h5, h6, cleanupReturn]

/-- C9 witness: the theorem applied to `envC9` (two transfers set up
successfully, SYNCFF switch fails). -/
theorem C9_witness :
    (envC9.typeSupported = true ∧ envC9.resetOk = true ∧ envC9.flushOk = true ∧
      envC9.setup.callocOk = true ∧ (setupLoop envC9.setup 2).failed = false ∧
      envC9.syncffOk = false) ∧
    ftdi_stream_read cbZero 4 2 envC9 = 0 :=
  ⟨⟨rfl, rfl, rfl, rfl, by decide, rfl⟩,
    C9_syncff_failure_returns_zero cbZero 4 2 envC9 rfl rfl rfl rfl (by decide) rfl⟩

end FtdiStream
